import Mathlib

/-
Verification of the password strength checker (app.py).

The password analyzer works on Python strings; we embed a Python character
as a record `PC` carrying its code point together with the results of the
Python Unicode-database predicates that the source consults
(`str.islower`, `str.isupper`, `str.isdigit`) and the code point of its
`str.lower()` image.  For ASCII characters these attributes are computed
(`asciiChar`); for the non-ASCII characters used in concrete statements
they are recorded explicitly with the values the CPython Unicode database
assigns them.  A password is a `List PC`.

Real-valued arithmetic (`math.log2`, `2 ** entropy`) is embedded as exact
real arithmetic.
-/

/-- Model of one Python character: code point, Unicode-database class
predicates (islower / isupper / isdigit), and the code point of its
`str.lower()` image (assumed single-character, true for every character
appearing in this development). -/
structure PC where
  cp : ℕ
  lower : Bool
  upper : Bool
  digit : Bool
  lowerCp : ℕ
deriving DecidableEq

/-- ASCII character with its standard class attributes (matches the CPython
Unicode database on code points 0..127). Only used on ASCII code points. -/
def asciiChar (n : ℕ) : PC :=
  { cp := n
    lower := decide (97 ≤ n ∧ n ≤ 122)
    upper := decide (65 ≤ n ∧ n ≤ 90)
    digit := decide (48 ≤ n ∧ n ≤ 57)
    lowerCp := if 65 ≤ n ∧ n ≤ 90 then n + 32 else n }

/-- Code points of a Lean string (used for the program's ASCII string
constants). -/
def cpsOf (s : String) : List ℕ := s.data.map Char.toNat

/-- Embed an ASCII Lean string as a Python string. -/
def ofString (s : String) : List PC := s.data.map (fun c => asciiChar c.toNat)

/-- Model of the character 'é' (U+00E9): `islower()` is `True`,
`isupper()` and `isdigit()` are `False`, `lower()` is itself. -/
def chE9 : PC := ⟨233, true, false, false, 233⟩

/-- Model of the Arabic-Indic digit '٣' (U+0663): `isdigit()` is `True`,
`islower()` and `isupper()` are `False`, `lower()` is itself. -/
def chArabicThree : PC := ⟨1635, false, false, true, 1635⟩

/-- Python `string.ascii_lowercase` as code points. -/
def ascii_lowercase : List ℕ := cpsOf ("abcdefghijklmnopqrstuvwxyz")

/-- Python `string.ascii_uppercase` as code points. -/
def ascii_uppercase : List ℕ := cpsOf ("ABCDEFGHIJKLMNOPQRSTUVWXYZ")

/-- Python `string.digits` as code points. -/
def string_digits : List ℕ := cpsOf ("0123456789")

/-- Python `string.punctuation` (32 ASCII symbols) as code points. -/
def string_punctuation : List ℕ :=
  cpsOf ("!\"#$%&\x27()*+,-./:;<=>?@[\\]^_\x60\x7b|\x7d~")

/-- Python `c.islower()` in the embedding. -/
def isLowerPC (c : PC) : Bool := c.lower

/-- Python `c.isupper()` in the embedding. -/
def isUpperPC (c : PC) : Bool := c.upper

/-- Python `c.isdigit()` in the embedding. -/
def isDigitPC (c : PC) : Bool := c.digit

/-- Python `c in string.punctuation` in the embedding. -/
def inPunct (c : PC) : Bool := string_punctuation.contains c.cp

/-- `any(c.islower() for c in password)` (app.py line 19 / 86). -/
def has_lower (p : List PC) : Bool := p.any isLowerPC

/-- `any(c.isupper() for c in password)` (app.py line 21 / 95). -/
def has_upper (p : List PC) : Bool := p.any isUpperPC

/-- `any(c.isdigit() for c in password)` (app.py line 23 / 104). -/
def has_digit (p : List PC) : Bool := p.any isDigitPC

/-- `any(c in string.punctuation for c in password)` (app.py line 25 / 113). -/
def has_special (p : List PC) : Bool := p.any inPunct

/-- `any(ord(c) > 127 for c in password)` (app.py line 27). -/
def has_nonascii (p : List PC) : Bool := p.any (fun c => decide (127 < c.cp))

/-- The accumulated `charset_size` of `calculate_entropy` (app.py 17-28). -/
def charset_size (p : List PC) : ℕ :=
  (if has_lower p then 26 else 0) + (if has_upper p then 26 else 0) +
  (if has_digit p then 10 else 0) + (if has_special p then 32 else 0) +
  (if has_nonascii p then 100 else 0)

/-- `calculate_entropy` (app.py 15-34): `0` when `charset_size == 0`,
otherwise `len(password) * math.log2(charset_size)`. -/
noncomputable def calculate_entropy (p : List PC) : ℝ :=
  if charset_size p = 0 then 0
  else (p.length : ℝ) * Real.logb 2 (charset_size p)

/-- Alphabet size as the spec words it: a sum of fixed per-class
contributions, each added once exactly when some character of that class
is present (spec section 4.1). -/
def specAlphabetSize (p : List PC) : ℕ :=
  (if ∃ c ∈ p, c.lower = true then 26 else 0) +
  (if ∃ c ∈ p, c.upper = true then 26 else 0) +
  (if ∃ c ∈ p, c.digit = true then 10 else 0) +
  (if ∃ c ∈ p, inPunct c = true then 32 else 0) +
  (if ∃ c ∈ p, 127 < c.cp then 100 else 0)

/-- `total_combinations = 2 ** entropy` (app.py line 40). -/
noncomputable def total_combinations (entropy : ℝ) : ℝ := (2 : ℝ) ^ entropy

/-- Largest power of two representable as a finite IEEE-754 double is
below `2 ^ 1024`; a CPython float `**` whose true result reaches this
threshold raises OverflowError instead of returning a value. -/
noncomputable def doubleOverflowThreshold : ℝ := 2 ^ (1024 : ℕ)

/-- `estimate_crack_time` (app.py 36-62), with Python `int()` on the
positive quotients embedded as the floor.  The CPython expression
`2 ** entropy` is a float power and raises OverflowError once its true
value leaves the IEEE-754 double range; that error path is modelled by
`Except.error ()` at the idealized threshold `2 ^ 1024` (the exact value
of `2 ** entropy` is at least `2 ^ 1024` iff `entropy ≥ 1024`, and every
finite double is below `2 ^ 1024`). -/
noncomputable def estimate_crack_time (entropy : ℝ) : Except Unit String :=
  if doubleOverflowThreshold ≤ total_combinations entropy then Except.error ()
  else Except.ok (
  if total_combinations entropy / (2 * 10 ^ 9) < 1 then ("Less than a second")
  else if total_combinations entropy / (2 * 10 ^ 9) < 60 then
    toString ⌊total_combinations entropy / (2 * 10 ^ 9)⌋ ++ (" seconds")
  else if total_combinations entropy / (2 * 10 ^ 9) < 3600 then
    toString ⌊total_combinations entropy / (2 * 10 ^ 9) / 60⌋ ++ (" minutes")
  else if total_combinations entropy / (2 * 10 ^ 9) < 86400 then
    toString ⌊total_combinations entropy / (2 * 10 ^ 9) / 3600⌋ ++ (" hours")
  else if total_combinations entropy / (2 * 10 ^ 9) < 2592000 then
    toString ⌊total_combinations entropy / (2 * 10 ^ 9) / 86400⌋ ++ (" days")
  else if total_combinations entropy / (2 * 10 ^ 9) < 31536000 then
    toString ⌊total_combinations entropy / (2 * 10 ^ 9) / 2592000⌋ ++ (" months")
  else if 1000000 < ⌊total_combinations entropy / (2 * 10 ^ 9) / 31536000⌋ then
    ("Millions of years")
  else if 1000 < ⌊total_combinations entropy / (2 * 10 ^ 9) / 31536000⌋ then
    toString (⌊total_combinations entropy / (2 * 10 ^ 9) / 31536000⌋ / 1000) ++ ("k+ years")
  else
    toString ⌊total_combinations entropy / (2 * 10 ^ 9) / 31536000⌋ ++ (" years"))

/-- Python string `str.lower()` of a password, as code points. -/
def loweredCps (p : List PC) : List ℕ := p.map (fun c => c.lowerCp)

/-- Does `needle` occur at the head of `hay`? (helper for Python `in`). -/
def startsWithCps : List ℕ → List ℕ → Bool
  | [], _ => true
  | _ :: _, [] => false
  | a :: as, b :: bs => (a == b) && startsWithCps as bs

/-- Python substring containment `needle in hay` for strings. -/
def containsSub (needle : List ℕ) : List ℕ → Bool
  | [] => needle.isEmpty
  | b :: t => startsWithCps needle (b :: t) || containsSub needle t

/-- `common_patterns` (app.py line 122) as code-point strings. -/
def common_patterns : List (List ℕ) :=
  [cpsOf ("123"), cpsOf ("abc"), cpsOf ("password"), cpsOf ("qwerty"),
   cpsOf ("111"), cpsOf ("000")]

/-- `any(pattern in password.lower() for pattern in common_patterns)`
(app.py line 123). -/
def has_common (p : List PC) : Bool :=
  common_patterns.any (fun pat => containsSub pat (loweredCps p))

/-- Three equal consecutive characters somewhere in the list, excluding
the newline (code point 10): the regex metacharacter matching the captured
character does not match a newline without DOTALL. -/
def hasTriple : List ℕ → Bool
  | a :: b :: c :: t =>
    (!(a == 10) && (a == b) && (b == c)) || hasTriple (b :: c :: t)
  | _ => false

/-- `re.search(r'(.)\1{2,}', password)` is truthy (app.py line 132): some
non-newline character occurs three or more times consecutively. -/
def has_repeat (p : List PC) : Bool := hasTriple (p.map (fun c => c.cp))

/-- Length component of the score (app.py 76-83). -/
def lenScore (p : List PC) : ℤ :=
  if 12 ≤ p.length then 25 else if 8 ≤ p.length then 15 else 0

/-- Lowercase component of the score (app.py 86-92). -/
def lowerScore (p : List PC) : ℤ := if has_lower p then 10 else 0

/-- Uppercase component of the score (app.py 95-101). -/
def upperScore (p : List PC) : ℤ := if has_upper p then 10 else 0

/-- Digit component of the score (app.py 104-110). -/
def digitScore (p : List PC) : ℤ := if has_digit p then 10 else 0

/-- Special-character component of the score (app.py 113-119). -/
def specialScore (p : List PC) : ℤ := if has_special p then 15 else 0

/-- Common-pattern component of the score (app.py 122-129). -/
def commonScore (p : List PC) : ℤ := if has_common p then -10 else 10

/-- Repetition component of the score (app.py 132-137). -/
def repeatScore (p : List PC) : ℤ := if has_repeat p then -5 else 10

/-- The accumulated `score` of `check_password_strength` before clamping
(app.py 69-137). -/
def scoreOf (p : List PC) : ℤ :=
  lenScore p + lowerScore p + upperScore p + digitScore p +
  specialScore p + commonScore p + repeatScore p

/-- `max(0, min(100, score))` (app.py line 158). -/
def clampScore (s : ℤ) : ℤ := max 0 (min 100 s)

/-- The result dictionary of `check_password_strength` (app.py 157-166),
with the `criteria` sub-dictionary flattened into five boolean fields. -/
structure AnalysisResult where
  score : ℤ
  strength : String
  color : String
  emoji : String
  feedback : List String
  criteria_length : Bool
  criteria_lowercase : Bool
  criteria_uppercase : Bool
  criteria_numbers : Bool
  criteria_special : Bool
  entropy : ℝ
  crack_time : String

/-- The feedback lines in the order the source appends them (app.py
76-137). -/
def feedbackOf (p : List PC) : List String :=
  [ if 12 ≤ p.length then ("✓ Excellent length (12+ characters)")
    else if 8 ≤ p.length then ("✓ Good length (8+ characters)")
    else ("✗ Too short (minimum 8 characters recommended)"),
    if has_lower p then ("✓ Contains lowercase letters")
    else ("✗ Missing lowercase letters"),
    if has_upper p then ("✓ Contains uppercase letters")
    else ("✗ Missing uppercase letters"),
    if has_digit p then ("✓ Contains numbers") else ("✗ Missing numbers"),
    if has_special p then ("✓ Contains special characters")
    else ("✗ Missing special characters"),
    if has_common p then
      ("⚠ Contains common patterns (avoid sequences like \x27123\x27, \x27abc\x27, \x27password\x27)")
    else ("✓ No common patterns detected"),
    if has_repeat p then ("⚠ Contains repeated characters")
    else ("✓ No excessive character repetition") ]

/-- The populated analysis result for a non-empty password (app.py
139-166), given the crack-time string that `estimate_crack_time`
successfully returned for the password's entropy.  The strength level is
chosen from the raw (unclamped) score, exactly as in the source. -/
noncomputable def analysisOf (p : List PC) (ct : String) : AnalysisResult :=
  { score := clampScore (scoreOf p)
    strength :=
      if 75 ≤ scoreOf p then ("Strong")
      else if 50 ≤ scoreOf p then ("Medium") else ("Weak")
    color :=
      if 75 ≤ scoreOf p then ("green")
      else if 50 ≤ scoreOf p then ("orange") else ("red")
    emoji :=
      if 75 ≤ scoreOf p then ("🟢")
      else if 50 ≤ scoreOf p then ("🟡") else ("🔴")
    feedback := feedbackOf p
    criteria_length := decide (8 ≤ p.length)
    criteria_lowercase := has_lower p
    criteria_uppercase := has_upper p
    criteria_numbers := has_digit p
    criteria_special := has_special p
    entropy := calculate_entropy p
    crack_time := ct }

/-- `check_password_strength` (app.py 64-166): `Except.ok none` on the
empty password; otherwise the call to `estimate_crack_time` at line 141
either raises (the OverflowError propagates, `Except.error`) or yields
the crack-time string of the populated result. -/
noncomputable def check_password_strength (p : List PC) :
    Except Unit (Option AnalysisResult) :=
  if p = [] then Except.ok none
  else (estimate_crack_time (calculate_entropy p)).map
    (fun ct => some (analysisOf p ct))

/-- The candidate alphabet of `generate_password` (app.py 170-178):
class symbol sets concatenated in source order for every selected flag. -/
def charsetOf (use_upper use_lower use_digits use_special : Bool) : List ℕ :=
  (if use_lower then ascii_lowercase else []) ++
  (if use_upper then ascii_uppercase else []) ++
  (if use_digits then string_digits else []) ++
  (if use_special then string_punctuation else [])

/-- `generate_password` (app.py 168-184).  The cryptographically secure
random source (`secrets.choice`) is modelled by an oracle `randIdx` of
index draws; each drawn character is `charset[randIdx i % len(charset)]`,
so every charset element is reachable and nothing else is. -/
def generate_password (length : ℕ)
    (use_upper use_lower use_digits use_special : Bool)
    (randIdx : ℕ → ℕ) : Option (List ℕ) :=
  if charsetOf use_upper use_lower use_digits use_special = [] then none
  else
    some ((List.range length).map (fun i =>
      (charsetOf use_upper use_lower use_digits use_special).getD
        (randIdx i % (charsetOf use_upper use_lower use_digits use_special).length) 0))

/-- `common_breached` (app.py 189-195): the fixed 25-entry list. -/
def common_breached : List (List PC) :=
  [ofString ("password"), ofString ("123456"), ofString ("12345678"),
   ofString ("qwerty"), ofString ("abc123"),
   ofString ("monkey"), ofString ("1234567"), ofString ("letmein"),
   ofString ("trustno1"), ofString ("dragon"),
   ofString ("baseball"), ofString ("iloveyou"), ofString ("master"),
   ofString ("sunshine"), ofString ("ashley"),
   ofString ("bailey"), ofString ("passw0rd"), ofString ("shadow"),
   ofString ("123123"), ofString ("654321"),
   ofString ("superman"), ofString ("qazwsx"), ofString ("michael"),
   ofString ("football"), ofString ("password1")]

/-- `check_common_breach` (app.py 186-197):
`password.lower() in common_breached`. -/
def check_common_breach (p : List PC) : Bool :=
  decide (loweredCps p ∈ common_breached.map (fun e => e.map (fun c => c.cp)))

theorem clampScore_nonneg (s : ℤ) : 0 ≤ clampScore s := le_max_left 0 _

theorem clampScore_le_hundred (s : ℤ) : clampScore s ≤ 100 :=
  max_le (by norm_num) (min_le_left _ _)

theorem clampScore_of_nonneg (s : ℤ) (h0 : 0 ≤ s) (h1 : s ≤ 100) :
    clampScore s = s := by
  unfold clampScore
  rw [min_eq_right h1, max_eq_right h0]

theorem clampScore_of_neg (s : ℤ) (h : s < 0) : clampScore s = 0 := by
  unfold clampScore
  rw [min_eq_right (by omega : s ≤ 100), max_eq_left (by omega : s ≤ 0)]

theorem clampScore_mono {a b : ℤ} (h : a ≤ b) : clampScore a ≤ clampScore b :=
  max_le_max le_rfl (min_le_min le_rfl h)

theorem scoreOf_le_ninety (p : List PC) : scoreOf p ≤ 90 := by
  unfold scoreOf lenScore lowerScore upperScore digitScore specialScore
    commonScore repeatScore
  split_ifs <;> omega

theorem neg_fifteen_le_scoreOf (p : List PC) : -15 ≤ scoreOf p := by
  unfold scoreOf lenScore lowerScore upperScore digitScore specialScore
    commonScore repeatScore
  split_ifs <;> omega

theorem check_password_strength_ok (p : List PC) (ct : String) (hp : p ≠ [])
    (h : estimate_crack_time (calculate_entropy p) = Except.ok ct) :
    check_password_strength p = Except.ok (some (analysisOf p ct)) := by
  unfold check_password_strength
  rw [if_neg hp, h]
  rfl

theorem exists_ct_of_ok (p : List PC) (r : AnalysisResult)
    (h : check_password_strength p = Except.ok (some r)) :
    ∃ ct, estimate_crack_time (calculate_entropy p) = Except.ok ct ∧
      r = analysisOf p ct := by
  unfold check_password_strength at h
  split_ifs at h with hpe
  · simp at h
  · cases hect : estimate_crack_time (calculate_entropy p) with
    | error e =>
      rw [hect] at h
      simp [Except.map] at h
    | ok ct =>
      rw [hect] at h
      simp [Except.map] at h
      exact ⟨ct, rfl, h.symm⟩

theorem entropy_single_a :
    calculate_entropy [asciiChar 97] = Real.logb 2 26 := by
  unfold calculate_entropy
  rw [show charset_size [asciiChar 97] = 26 from by decide]
  norm_num

theorem crack_time_single_a :
    estimate_crack_time (calculate_entropy [asciiChar 97]) =
      Except.ok ("Less than a second") := by
  rw [entropy_single_a]
  have htc : total_combinations (Real.logb 2 26) = 26 := by
    unfold total_combinations
    exact Real.rpow_logb (by norm_num) (by norm_num) (by norm_num)
  unfold estimate_crack_time
  rw [htc]
  norm_num [doubleOverflowThreshold]

theorem cps_single_a :
    check_password_strength [asciiChar 97] =
      Except.ok (some (analysisOf [asciiChar 97] ("Less than a second"))) :=
  check_password_strength_ok _ _ (by decide) crack_time_single_a

theorem entropy_218_lowercase :
    calculate_entropy (List.replicate 218 (asciiChar 97)) =
      218 * Real.logb 2 26 := by
  unfold calculate_entropy
  rw [show charset_size (List.replicate 218 (asciiChar 97)) = 26 from
    by decide]
  norm_num

theorem overflow_218_lowercase :
    doubleOverflowThreshold ≤ total_combinations (218 * Real.logb 2 26) := by
  have h218 : (218 : ℝ) * Real.logb 2 26 =
      Real.logb 2 ((26 : ℝ) ^ (218 : ℕ)) := by
    rw [Real.logb_pow]
    norm_num
  unfold doubleOverflowThreshold total_combinations
  rw [h218, Real.rpow_logb (by norm_num) (by norm_num) (by positivity)]
  have hn : (2 : ℕ) ^ 1024 ≤ 26 ^ 218 := by norm_num
  exact_mod_cast hn

/-- Claim C8 (evidence): `check_password_strength` returns the null result
exactly on the empty password, but the claim's "for every non-empty input
it always succeeds" is false of the program: a 218-character lowercase
password has entropy `218 * log2 26 ≥ 1024` bits, the crack-time
estimator's `2 ** entropy` overflows the double range, and the
OverflowError propagates out of `check_password_strength` instead of a
populated result. -/
theorem c8_none_iff_empty_and_overflow :
    (∀ p : List PC, check_password_strength p = Except.ok none ↔ p = []) ∧
      check_password_strength (List.replicate 218 (asciiChar 97)) =
        Except.error () := by
  constructor
  · intro p
    unfold check_password_strength
    split_ifs with hpe
    · exact iff_of_true rfl hpe
    · refine iff_of_false ?_ hpe
      cases hect : estimate_crack_time (calculate_entropy p) with
      | error e => simp [hect, Except.map]
      | ok ct => simp [hect, Except.map]
  · have hcrack : estimate_crack_time
        (calculate_entropy (List.replicate 218 (asciiChar 97))) =
        Except.error () := by
      rw [entropy_218_lowercase]
      unfold estimate_crack_time
      rw [if_pos overflow_218_lowercase]
    unfold check_password_strength
    rw [if_neg (by simp :
      ¬ List.replicate 218 (asciiChar 97) = ([] : List PC)), hcrack]
    rfl

/-- Claim C1: whenever `check_password_strength` returns a result for a
password, its `score` field is an integer in `[0, 100]`. -/
theorem c1_score_in_range (p : List PC) (r : AnalysisResult)
    (h : check_password_strength p = Except.ok (some r)) :
    0 ≤ r.score ∧ r.score ≤ 100 := by
  obtain ⟨ct, _, rfl⟩ := exists_ct_of_ok p r h
  exact ⟨clampScore_nonneg _, clampScore_le_hundred _⟩

theorem c1_score_in_range_witness :
    check_password_strength [asciiChar 97] =
      Except.ok (some (analysisOf [asciiChar 97] ("Less than a second"))) ∧
      0 ≤ (analysisOf [asciiChar 97] ("Less than a second")).score ∧
      (analysisOf [asciiChar 97] ("Less than a second")).score ≤ 100 :=
  ⟨cps_single_a, c1_score_in_range _ _ cps_single_a⟩

theorem charset_size_eq_spec (p : List PC) :
    charset_size p = specAlphabetSize p := by
  simp [charset_size, specAlphabetSize, has_lower, has_upper, has_digit,
    has_special, has_nonascii, isLowerPC, isUpperPC, isDigitPC,
    List.any_eq_true, decide_eq_true_eq]

/-- Claim C3: `calculate_entropy` returns `len(password) * log2(S)` where
`S` sums the fixed contributions 26/26/10/32/100 of the character classes
present (each at most once), and returns exactly `0` when `S = 0`. -/
theorem c3_entropy_formula (p : List PC) :
    calculate_entropy p =
      if specAlphabetSize p = 0 then 0
      else (p.length : ℝ) * Real.logb 2 (specAlphabetSize p) := by
  unfold calculate_entropy
  rw [charset_size_eq_spec p]

/-- Claim C10: the class predicates are Unicode-aware, so 'é' (U+00E9)
counts both as a lowercase letter and as a non-ASCII character, giving a
one-character password the entropy `log2 (26 + 100)`; a non-ASCII Unicode
digit such as '٣' (U+0663) counts toward the digit class. -/
theorem c10_unicode_classes :
    calculate_entropy [chE9] = Real.logb 2 126 ∧
      charset_size [chE9] = 126 ∧
      has_digit [chArabicThree] = true ∧
      charset_size [chArabicThree] = 110 := by
  refine ⟨?_, by decide, by decide, by decide⟩
  unfold calculate_entropy
  rw [show charset_size [chE9] = 126 from by decide]
  norm_num

/-- Claim C9: `check_common_breach` is true exactly when the lower-cased
input equals some entry of the fixed 25-entry breach list; in particular
it accepts "Password" and "PASSWORD" and rejects "Xk9#mQ2!vL". -/
theorem c9_breach_membership :
    (∀ p : List PC, check_common_breach p = true ↔
        loweredCps p ∈ common_breached.map (fun e => e.map (fun c => c.cp))) ∧
      check_common_breach (ofString ("Password")) = true ∧
      check_common_breach (ofString ("PASSWORD")) = true ∧
      check_common_breach (ofString ("Xk9#mQ2!vL")) = false := by
  refine ⟨fun p => ?_, by decide, by decide, by decide⟩
  unfold check_common_breach
  exact decide_eq_true_iff

/-- Claim C2: whenever `check_password_strength` returns a result, the
strength category is "Strong" iff the clamped score is at least 75,
"Medium" iff it lies in [50, 75), and "Weak" iff it is below 50. -/
theorem c2_category_thresholds (p : List PC) (r : AnalysisResult)
    (h : check_password_strength p = Except.ok (some r)) :
    ((r.strength = ("Strong")) ↔ 75 ≤ r.score) ∧
      ((r.strength = ("Medium")) ↔ (50 ≤ r.score ∧ r.score < 75)) ∧
      ((r.strength = ("Weak")) ↔ r.score < 50) := by
  obtain ⟨ct, _, rfl⟩ := exists_ct_of_ok p r h
  have hub := scoreOf_le_ninety p
  have hlb := neg_fifteen_le_scoreOf p
  have hsc : (analysisOf p ct).score = clampScore (scoreOf p) := rfl
  have hst : (analysisOf p ct).strength =
      if 75 ≤ scoreOf p then ("Strong")
      else if 50 ≤ scoreOf p then ("Medium") else ("Weak") := rfl
  rw [hsc, hst]
  rcases le_or_lt 75 (scoreOf p) with h75 | h75
  · rw [if_pos h75, clampScore_of_nonneg _ (by omega) (by omega)]
    exact ⟨⟨fun _ => h75, fun _ => rfl⟩,
      ⟨fun hx => absurd hx (by decide), fun hx => absurd hx (by omega)⟩,
      ⟨fun hx => absurd hx (by decide), fun hx => absurd hx (by omega)⟩⟩
  · rcases le_or_lt 50 (scoreOf p) with h50 | h50
    · rw [if_neg (by omega), if_pos h50,
        clampScore_of_nonneg _ (by omega) (by omega)]
      exact ⟨⟨fun hx => absurd hx (by decide), fun hx => absurd hx (by omega)⟩,
        ⟨fun _ => ⟨h50, h75⟩, fun _ => rfl⟩,
        ⟨fun hx => absurd hx (by decide), fun hx => absurd hx (by omega)⟩⟩
    · rw [if_neg (by omega), if_neg (by omega)]
      have hcl : clampScore (scoreOf p) < 50 := by
        rcases le_or_lt 0 (scoreOf p) with h0 | h0
        · rw [clampScore_of_nonneg _ h0 (by omega)]; omega
        · rw [clampScore_of_neg _ h0]; omega
      exact ⟨⟨fun hx => absurd hx (by decide), fun hx => absurd hx (by omega)⟩,
        ⟨fun hx => absurd hx (by decide), fun hx => absurd hx (by omega)⟩,
        ⟨fun _ => hcl, fun _ => rfl⟩⟩

theorem c2_category_thresholds_witness :
    check_password_strength [asciiChar 97] =
      Except.ok (some (analysisOf [asciiChar 97] ("Less than a second"))) ∧
      (((analysisOf [asciiChar 97] ("Less than a second")).strength =
          ("Strong")) ↔
        75 ≤ (analysisOf [asciiChar 97] ("Less than a second")).score) ∧
      (((analysisOf [asciiChar 97] ("Less than a second")).strength =
          ("Medium")) ↔
        (50 ≤ (analysisOf [asciiChar 97] ("Less than a second")).score ∧
          (analysisOf [asciiChar 97] ("Less than a second")).score < 75)) ∧
      (((analysisOf [asciiChar 97] ("Less than a second")).strength =
          ("Weak")) ↔
        (analysisOf [asciiChar 97] ("Less than a second")).score < 50) :=
  ⟨cps_single_a, c2_category_thresholds _ _ cps_single_a⟩

/-- Claim C5 (evidence): the crack-time estimator maps entropy 0 to
"Less than a second", but at entropy 2000 the intermediate `2 ** entropy`
exceeds the IEEE-754 double range, which is where the actual code raises
OverflowError instead of returning a string — here the modelled error
value. -/
theorem c5_crack_time_zero_and_overflow :
    estimate_crack_time 0 = Except.ok ("Less than a second") ∧
      doubleOverflowThreshold < total_combinations 2000 ∧
      estimate_crack_time 2000 = Except.error () := by
  have hlt : doubleOverflowThreshold < total_combinations 2000 := by
    have h : ((2 : ℝ) ^ ((2000 : ℕ) : ℝ)) = (2 : ℝ) ^ (2000 : ℕ) :=
      Real.rpow_natCast 2 2000
    have h2 : ((2000 : ℕ) : ℝ) = (2000 : ℝ) := by norm_num
    unfold doubleOverflowThreshold total_combinations
    rw [← h2, h]
    exact pow_lt_pow_right₀ (by norm_num) (by norm_num)
  refine ⟨?_, hlt, ?_⟩
  · have h0 : total_combinations 0 = 1 := by
      unfold total_combinations
      exact Real.rpow_zero 2
    unfold estimate_crack_time
    rw [h0]
    norm_num [doubleOverflowThreshold]
  · unfold estimate_crack_time
    rw [if_pos (le_of_lt hlt)]

theorem charsetOf_eq_nil_iff (u l d s : Bool) :
    charsetOf u l d s = [] ↔
      u = false ∧ l = false ∧ d = false ∧ s = false := by
  cases u <;> cases l <;> cases d <;> cases s <;> decide

/-- Claim C6: whenever at least one class flag is set, `generate_password`
returns a string of exactly the requested length whose characters all come
from the concatenation of the selected class alphabets, for every draw of
the random source. -/
theorem c6_generate_length_and_alphabet (n : ℕ) (u l d s : Bool)
    (randIdx : ℕ → ℕ)
    (h : u = true ∨ l = true ∨ d = true ∨ s = true) :
    ∃ pw, generate_password n u l d s randIdx = some pw ∧
      pw.length = n ∧ ∀ c ∈ pw, c ∈ charsetOf u l d s := by
  have hne : charsetOf u l d s ≠ [] := by
    intro hnil
    rw [charsetOf_eq_nil_iff] at hnil
    rcases h with h | h | h | h <;> simp_all
  unfold generate_password
  rw [if_neg hne]
  refine ⟨_, rfl, ?_, ?_⟩
  · simp
  · intro c hc
    simp only [List.mem_map, List.mem_range] at hc
    obtain ⟨i, _, rfl⟩ := hc
    have hlen : 0 < (charsetOf u l d s).length := List.length_pos.mpr hne
    have hk : randIdx i % (charsetOf u l d s).length <
        (charsetOf u l d s).length := Nat.mod_lt _ hlen
    rw [List.getD_eq_getElem?_getD, List.getElem?_eq_getElem hk]
    exact List.getElem_mem hk

theorem c6_generate_length_and_alphabet_witness :
    (true = true ∨ true = true ∨ true = true ∨ true = true) ∧
      ∃ pw, generate_password 16 true true true true (fun _ => 0) = some pw ∧
        pw.length = 16 ∧ ∀ c ∈ pw, c ∈ charsetOf true true true true :=
  ⟨Or.inl rfl,
    c6_generate_length_and_alphabet 16 true true true true (fun _ => 0)
      (Or.inl rfl)⟩

/-- Claim C7: `generate_password` returns the failure signal `none`
exactly when all four class flags are false, for every requested length
and every draw of the random source. -/
theorem c7_generate_fails_iff_no_class (n : ℕ) (u l d s : Bool)
    (randIdx : ℕ → ℕ) :
    generate_password n u l d s randIdx = none ↔
      u = false ∧ l = false ∧ d = false ∧ s = false := by
  unfold generate_password
  split_ifs with hc
  · exact iff_of_true rfl ((charsetOf_eq_nil_iff u l d s).mp hc)
  · exact iff_of_false (by simp)
      (fun hall => hc ((charsetOf_eq_nil_iff u l d s).mpr hall))

theorem ite_le_ite_of_imp {b₁ b₂ : Bool} (k : ℤ) (hk : 0 ≤ k)
    (h : b₁ = true → b₂ = true) :
    (if b₁ = true then k else 0) ≤ (if b₂ = true then k else 0) := by
  cases b₁ <;> cases b₂ <;> simp_all

theorem any_append_mono (p s : List PC) (f : PC → Bool)
    (h : p.any f = true) : (p ++ s).any f = true := by
  rw [List.any_append]
  simp [h]

theorem lenScore_mono (p s : List PC) : lenScore p ≤ lenScore (p ++ s) := by
  unfold lenScore
  rw [List.length_append]
  split_ifs <;> omega

theorem lowerScore_mono (p s : List PC) :
    lowerScore p ≤ lowerScore (p ++ s) := by
  unfold lowerScore
  exact ite_le_ite_of_imp 10 (by norm_num) (any_append_mono p s isLowerPC)

theorem upperScore_mono (p s : List PC) :
    upperScore p ≤ upperScore (p ++ s) := by
  unfold upperScore
  exact ite_le_ite_of_imp 10 (by norm_num) (any_append_mono p s isUpperPC)

theorem digitScore_mono (p s : List PC) :
    digitScore p ≤ digitScore (p ++ s) := by
  unfold digitScore
  exact ite_le_ite_of_imp 10 (by norm_num) (any_append_mono p s isDigitPC)

theorem specialScore_mono (p s : List PC) :
    specialScore p ≤ specialScore (p ++ s) := by
  unfold specialScore
  exact ite_le_ite_of_imp 15 (by norm_num) (any_append_mono p s inPunct)

theorem scoreOf_mono_of_checks_fixed (p s : List PC)
    (hcom : has_common (p ++ s) = has_common p)
    (hrep : has_repeat (p ++ s) = has_repeat p) :
    scoreOf p ≤ scoreOf (p ++ s) := by
  have h1 := lenScore_mono p s
  have h2 := lowerScore_mono p s
  have h3 := upperScore_mono p s
  have h4 := digitScore_mono p s
  have h5 := specialScore_mono p s
  have h6 : commonScore (p ++ s) = commonScore p := by
    unfold commonScore
    rw [hcom]
  have h7 : repeatScore (p ++ s) = repeatScore p := by
    unfold repeatScore
    rw [hrep]
  unfold scoreOf
  rw [h6, h7]
  omega

/-- Claim C4 (counterexample): "AB" has no lowercase character, 'c' is
lowercase, yet appending it drops the clamped score from 30 to 20, because
the lowered result "abc" now contains the common pattern "abc". -/
theorem c4_append_counterexample :
    (∀ c ∈ ([asciiChar 65, asciiChar 66] : List PC), ¬ isLowerPC c = true) ∧
      isLowerPC (asciiChar 99) = true ∧
      clampScore (scoreOf ([asciiChar 65, asciiChar 66] ++ [asciiChar 99])) <
        clampScore (scoreOf [asciiChar 65, asciiChar 66]) := by decide

/-- Claim C4 (amended): appending characters of a new, previously absent
character class never decreases the clamped score, provided the
common-pattern and repeated-run checks keep the same outcome on the
extended password; consequently whenever both analyses return a result,
the returned scores are ordered the same way.  The unamended claim fails
because those two checks can flip from bonus to penalty (see the
counterexample). -/
theorem c4_append_monotone_amended (cl : PC → Bool) (p s : List PC)
    (hcl : cl = isLowerPC ∨ cl = isUpperPC ∨ cl = isDigitPC ∨ cl = inPunct)
    (hp : p ≠ []) (hs : s ≠ [])
    (habsent : p.all (fun c => !(cl c)) = true)
    (hnew : s.all cl = true)
    (hcom : has_common (p ++ s) = has_common p)
    (hrep : has_repeat (p ++ s) = has_repeat p) :
    clampScore (scoreOf p) ≤ clampScore (scoreOf (p ++ s)) ∧
      ∀ r r', check_password_strength p = Except.ok (some r) →
        check_password_strength (p ++ s) = Except.ok (some r') →
        r.score ≤ r'.score := by
  have hmono := clampScore_mono (scoreOf_mono_of_checks_fixed p s hcom hrep)
  refine ⟨hmono, fun r r' hr hr' => ?_⟩
  obtain ⟨ct, _, rfl⟩ := exists_ct_of_ok p r hr
  obtain ⟨ct', _, rfl⟩ := exists_ct_of_ok (p ++ s) r' hr'
  exact hmono

theorem c4_append_monotone_amended_witness :
    (isLowerPC = isLowerPC ∨ isLowerPC = isUpperPC ∨
        isLowerPC = isDigitPC ∨ isLowerPC = inPunct) ∧
      ([asciiChar 88, asciiChar 89] : List PC) ≠ [] ∧
      ([asciiChar 97] : List PC) ≠ [] ∧
      ([asciiChar 88, asciiChar 89] : List PC).all
        (fun c => !(isLowerPC c)) = true ∧
      ([asciiChar 97] : List PC).all isLowerPC = true ∧
      has_common ([asciiChar 88, asciiChar 89] ++ [asciiChar 97]) =
        has_common [asciiChar 88, asciiChar 89] ∧
      has_repeat ([asciiChar 88, asciiChar 89] ++ [asciiChar 97]) =
        has_repeat [asciiChar 88, asciiChar 89] ∧
      (clampScore (scoreOf [asciiChar 88, asciiChar 89]) ≤
          clampScore (scoreOf ([asciiChar 88, asciiChar 89] ++ [asciiChar 97])) ∧
        ∀ r r', check_password_strength [asciiChar 88, asciiChar 89] =
            Except.ok (some r) →
          check_password_strength
            ([asciiChar 88, asciiChar 89] ++ [asciiChar 97]) =
            Except.ok (some r') →
          r.score ≤ r'.score) :=
  ⟨Or.inl rfl, by decide, by decide, by decide, by decide, by decide,
    by decide,
    c4_append_monotone_amended isLowerPC _ _ (Or.inl rfl) (by decide)
      (by decide) (by decide) (by decide) (by decide) (by decide)⟩
